import Mathlib

/-!
Verification development for `generate_config.py`, a generator of example
per-host configuration files from Ansible role metadata.

The Python source is shallowly embedded below: each `def` mirrors one
function (or a clearly delimited part of one) of the source file, keeping
the source's names where Lean allows it.  File-system access and YAML
decoding are out of scope (spec §1): functions that in the source read a
file take the decoded document - or `Option` of it, `none` standing for a
missing file - as an explicit argument, and the role-accumulation
callback of `generate` is passed as a function argument.
-/

/-! ## Generic YAML-like values

`yaml.safe_load` produces nested mappings / sequences / scalars.  The
mutually inductive presentation (instead of `List` nesting) keeps
decidable equality kernel-computable. -/

mutual
inductive YValue where
  | s (v : String)
  | i (n : Int)
  | b (v : Bool)
  | nullv
  | list (items : YSeq)
  | dict (entries : YMap)
deriving Repr
inductive YSeq where
  | nil
  | cons (hd : YValue) (tl : YSeq)
deriving Repr
inductive YMap where
  | nil
  | cons (key : String) (val : YValue) (tl : YMap)
deriving Repr
end

mutual
/-- Kernel-computable decidable equality on `YValue` (the derived
instance for the mutual inductive blocks `decide`). -/
def YValue.decEq : (a b : YValue) → Decidable (a = b)
  | .s x, .s y =>
    if h : x = y then isTrue (by rw [h]) else isFalse (fun hc => h (by cases hc; rfl))
  | .i x, .i y =>
    if h : x = y then isTrue (by rw [h]) else isFalse (fun hc => h (by cases hc; rfl))
  | .b x, .b y =>
    if h : x = y then isTrue (by rw [h]) else isFalse (fun hc => h (by cases hc; rfl))
  | .nullv, .nullv => isTrue rfl
  | .list xs, .list ys =>
    match YSeq.decEq xs ys with
    | isTrue h => isTrue (by rw [h])
    | isFalse h => isFalse (fun hc => h (by cases hc; rfl))
  | .dict xs, .dict ys =>
    match YMap.decEq xs ys with
    | isTrue h => isTrue (by rw [h])
    | isFalse h => isFalse (fun hc => h (by cases hc; rfl))
  | .s _, .i _ => isFalse (fun h => nomatch h)
  | .s _, .b _ => isFalse (fun h => nomatch h)
  | .s _, .nullv => isFalse (fun h => nomatch h)
  | .s _, .list _ => isFalse (fun h => nomatch h)
  | .s _, .dict _ => isFalse (fun h => nomatch h)
  | .i _, .s _ => isFalse (fun h => nomatch h)
  | .i _, .b _ => isFalse (fun h => nomatch h)
  | .i _, .nullv => isFalse (fun h => nomatch h)
  | .i _, .list _ => isFalse (fun h => nomatch h)
  | .i _, .dict _ => isFalse (fun h => nomatch h)
  | .b _, .s _ => isFalse (fun h => nomatch h)
  | .b _, .i _ => isFalse (fun h => nomatch h)
  | .b _, .nullv => isFalse (fun h => nomatch h)
  | .b _, .list _ => isFalse (fun h => nomatch h)
  | .b _, .dict _ => isFalse (fun h => nomatch h)
  | .nullv, .s _ => isFalse (fun h => nomatch h)
  | .nullv, .i _ => isFalse (fun h => nomatch h)
  | .nullv, .b _ => isFalse (fun h => nomatch h)
  | .nullv, .list _ => isFalse (fun h => nomatch h)
  | .nullv, .dict _ => isFalse (fun h => nomatch h)
  | .list _, .s _ => isFalse (fun h => nomatch h)
  | .list _, .i _ => isFalse (fun h => nomatch h)
  | .list _, .b _ => isFalse (fun h => nomatch h)
  | .list _, .nullv => isFalse (fun h => nomatch h)
  | .list _, .dict _ => isFalse (fun h => nomatch h)
  | .dict _, .s _ => isFalse (fun h => nomatch h)
  | .dict _, .i _ => isFalse (fun h => nomatch h)
  | .dict _, .b _ => isFalse (fun h => nomatch h)
  | .dict _, .nullv => isFalse (fun h => nomatch h)
  | .dict _, .list _ => isFalse (fun h => nomatch h)
/-- Decidable equality on embedded YAML sequences. -/
def YSeq.decEq : (a b : YSeq) → Decidable (a = b)
  | .nil, .nil => isTrue rfl
  | .nil, .cons _ _ => isFalse (fun h => nomatch h)
  | .cons _ _, .nil => isFalse (fun h => nomatch h)
  | .cons x xs, .cons y ys =>
    match YValue.decEq x y with
    | isFalse h1 => isFalse (fun hc => h1 (by cases hc; rfl))
    | isTrue h1 =>
      match YSeq.decEq xs ys with
      | isTrue h2 => isTrue (by rw [h1, h2])
      | isFalse h2 => isFalse (fun hc => h2 (by cases hc; rfl))
/-- Decidable equality on embedded YAML mappings. -/
def YMap.decEq : (a b : YMap) → Decidable (a = b)
  | .nil, .nil => isTrue rfl
  | .nil, .cons _ _ _ => isFalse (fun h => nomatch h)
  | .cons _ _ _, .nil => isFalse (fun h => nomatch h)
  | .cons k v tl, .cons k2 v2 tl2 =>
    if hk : k = k2 then
      match YValue.decEq v v2 with
      | isFalse h1 => isFalse (fun hc => h1 (by cases hc; rfl))
      | isTrue h1 =>
        match YMap.decEq tl tl2 with
        | isTrue h2 => isTrue (by rw [hk, h1, h2])
        | isFalse h2 => isFalse (fun hc => h2 (by cases hc; rfl))
    else isFalse (fun hc => hk (by cases hc; rfl))
end

instance : DecidableEq YValue := YValue.decEq

instance : DecidableEq YSeq := YSeq.decEq

instance : DecidableEq YMap := YMap.decEq

/-- Convert an embedded YAML sequence to a Lean list (iteration order). -/
def YSeq.toList : YSeq → List YValue
  | .nil => []
  | .cons hd tl => hd :: tl.toList

/-- Python `d[k]` / `k in d` on a decoded mapping: first matching key. -/
def YMap.get : YMap → String → Option YValue
  | .nil, _ => none
  | .cons key val tl, k => if key = k then some val else tl.get k

/-- Keys of a decoded mapping, in order (Python `dict.keys()`). -/
def YMap.keys : YMap → List String
  | .nil => []
  | .cons key _ tl => key :: tl.keys

/-- Build an embedded YAML sequence from a list (input notation). -/
def yseq (l : List YValue) : YSeq := l.foldr YSeq.cons YSeq.nil

/-- Build an embedded YAML mapping from key-value pairs (input notation). -/
def ymap (l : List (String × YValue)) : YMap :=
  l.foldr (fun e m => YMap.cons e.1 e.2 m) YMap.nil

/-! ## Scalars appearing in role specs and defaults files -/

/-- A scalar configuration value (string / int / bool), as stored in a
role's `defaults/main.yml` or in a spec's `default:` field. -/
inductive YScalar where
  | s (v : String)
  | i (n : Int)
  | b (v : Bool)
deriving DecidableEq, Repr

/-- Python `str()` of a scalar, as interpolated into an f-string. -/
def YScalar.pyStr : YScalar → String
  | .s v => v
  | .i n => toString n
  | .b true => "True"
  | .b false => "False"

/-- Python `str.strip()`: remove leading and trailing whitespace. -/
def pyStrip (s : String) : String :=
  String.mk (((s.toList.dropWhile Char.isWhitespace).reverse.dropWhile Char.isWhitespace).reverse)

/-- Lookup in an association list by key (Python `dict.get`, the decoded
mappings preserving insertion order with unique keys). -/
def alistGet {α : Type} : List (String × α) → String → Option α
  | [], _ => none
  | e :: rest, k => if e.1 = k then some e.2 else alistGet rest k

/-! ## Constants and dataclasses of `generate_config.py` -/

def SHARED_HOST_NAME : String := "all"

def SECRET_FILE_SUFFIX : String := ".secrets"

/-- dataclass `ConfigHost`. -/
structure ConfigHost where
  name : String
  group_name : String
deriving DecidableEq, Repr

/-- dataclass `ConfigProperty` (field order and types as annotated). -/
structure ConfigProperty where
  name : String
  type : Option String
  description : String
  required : Bool
  default : Option YScalar
  secret : Bool
deriving DecidableEq, Repr

/-- dataclass `ConfigRole`. -/
structure ConfigRole where
  name : String
  description : String
  short_description : String
  properties : List ConfigProperty
deriving DecidableEq, Repr

/-! ## `HostsParser.get_hosts`

The decoded inventory is a mapping whose top-level values each hold a
`children` mapping of group name to group data; group data optionally
holds a `hosts` mapping whose keys are host names.  The embedding takes
the relevant shape directly: for each top-level entry, the list of
`(group, optional host-name keys)` pairs. -/

def get_hosts (include_shared : Bool)
    (inventory : List (List (String × Option (List String)))) : List ConfigHost :=
  (if include_shared then [ConfigHost.mk SHARED_HOST_NAME "all"] else []) ++
    inventory.flatMap (fun top_data =>
      top_data.flatMap (fun gd =>
        match gd.2 with
        | some hs => hs.map (fun host => ConfigHost.mk host gd.1)
        | none => []))

/-! ## `ConfigGenerator.parse_role`

Inputs:
* `specs`: `none` when `meta/argument_specs.yml` is missing (early
  return); `some argSpecs` otherwise, where `argSpecs` is the value of
  `specs.get("argument_specs", {}).get("main", {})`, `none` standing for
  a missing-or-empty (falsy) result of that chain.
* `defaultsFile`: the decoded `defaults/main.yml` mapping, `none` when
  the file is missing; a value of `none` for a variable models an entry
  decoded as YAML null (Python `None`). -/

/-- One entry of the `options` mapping of `argument_specs.main`
(absent keys are `none`; `meta.get(...)` defaults applied at use site). -/
structure OptionMeta where
  type : Option String
  description : Option String
  required : Option Bool
  xsecret : Option Bool
  default : Option YScalar
deriving DecidableEq, Repr

/-- The decoded `argument_specs.main` object. -/
structure ArgSpecsMain where
  description : Option String
  short_description : Option String
  options : Option (List (String × OptionMeta))
deriving DecidableEq, Repr

/-- The `ConfigProperty` built by one iteration of the options loop in
`parse_role`: `default = defaults.get(var_name, meta.get("default"))`. -/
def option_property (defaults : List (String × Option YScalar))
    (var_name : String) (meta : OptionMeta) : ConfigProperty :=
  ConfigProperty.mk var_name meta.type (pyStrip (meta.description.getD ""))
    (meta.required.getD false)
    (match alistGet defaults var_name with
     | some v => v
     | none => meta.default)
    (meta.xsecret.getD false)

/-- `ConfigGenerator.parse_role`.  The options loop carries the local
variable `description` in its state: the Python source rebinds the
enclosing `description` variable on every iteration, so the returned
`ConfigRole.description` is the last option's (stripped) description
whenever at least one option is declared. -/
def parse_role (role : String) (specs : Option (Option ArgSpecsMain))
    (defaultsFile : Option (List (String × Option YScalar))) : ConfigRole :=
  match specs with
  | none => ConfigRole.mk role "" "" []
  | some argSpecs =>
    let defaults := defaultsFile.getD []
    let description :=
      match argSpecs with
      | some m => m.description.getD ""
      | none => ""
    let short_description :=
      match argSpecs with
      | some m => m.short_description.getD ""
      | none => ""
    let options :=
      match argSpecs with
      | some m => m.options.getD []
      | none => []
    let st := options.foldl
      (fun (st : String × List ConfigProperty) e =>
        (pyStrip (e.2.description.getD ""), st.2 ++ [option_property defaults e.1 e.2]))
      (description, [])
    ConfigRole.mk role st.1 short_description st.2

/-! ## `ConfigGenerator.build_role_config`

The emitted lines are represented structurally (`PLine`), with `render`
producing the exact string of each `block.append` of the source; the
string-level function is the rendering of the structural one. -/

/-- One output line of `build_role_config`, one constructor per
`block.append` site of the source. -/
inductive PLine where
  | header (name : String) (short_description : String)
  | descLine (description : String)
  | separator
  | blank
  | reqComment (required : Bool) (description : String)
  | typeComment (type : String)
  | defaultComment (default : YScalar)
  | propLine (name : String) (default : Option YScalar)
  | noOptions
  | secretsNote
deriving DecidableEq, Repr

/-- An ASCII apostrophe (as in the f-string quoting `SECRET_FILE_SUFFIX`). -/
def sqChar : String := String.singleton (Char.ofNat 39)

/-- The exact string of each output line of `build_role_config`. -/
def PLine.render : PLine → String
  | .header name short_description =>
    "\n### Role: " ++ name ++
      (if short_description = "" then "" else " - " ++ short_description)
  | .descLine description => "###     " ++ description
  | .separator => String.mk (List.replicate 64 '#')
  | .blank => ""
  | .reqComment required description =>
    "#  (" ++ (if required then "REQUIRED" else "Optional") ++ ") " ++ description
  | .typeComment type => "#  Type: " ++ type
  | .defaultComment default => "#  Default: " ++ default.pyStr
  | .propLine name default =>
    name ++ ": " ++ (match default with | some d => d.pyStr | none => "")
  | .noOptions => "(no options)"
  | .secretsNote =>
    "# Note: This role has secret variables. See the corresponding " ++ sqChar ++
      SECRET_FILE_SUFFIX ++ sqChar ++ " file for the list of those variables."

/-- The lines the properties loop of `build_role_config` appends for one
property that passes the `prop.secret != secrets` filter. -/
def propLines (p : ConfigProperty) : List PLine :=
  [PLine.reqComment p.required p.description] ++
    (match p.type with | some t => [PLine.typeComment t] | none => []) ++
    (match p.default with | some d => [PLine.defaultComment d] | none => []) ++
    [PLine.propLine p.name p.default, PLine.blank]

/-- Lines 1-3 of a role block: header, the conditional description line
(`if config_role.description:`), the separator, and the blank line
appended right after it. -/
def header_blockL (config_role : ConfigRole) : List PLine :=
  [PLine.header config_role.name config_role.short_description] ++
    (if config_role.description = "" then [] else [PLine.descLine config_role.description]) ++
    [PLine.separator, PLine.blank]

/-- The middle of a role block: the properties loop when
`config_role.properties` is truthy (each property passing the
`prop.secret != secrets` filter contributes `propLines`), else the
`(no options)` marker. -/
def body_blockL (config_role : ConfigRole) (secrets : Bool) : List PLine :=
  if config_role.properties = [] then [PLine.noOptions]
  else config_role.properties.flatMap
    (fun prop => if prop.secret = secrets then propLines prop else [])

/-- The trailing note: `if not secrets and has_secrets`. -/
def note_blockL (config_role : ConfigRole) (secrets : Bool) : List PLine :=
  if secrets = false ∧ config_role.properties.any (fun p => p.secret) = true then
    [PLine.secretsNote]
  else []

/-- `ConfigGenerator.build_role_config`, structurally: the appends of the
source, in source order, ending with the final readability blank. -/
def build_role_configL (config_role : ConfigRole) (secrets : Bool) : List PLine :=
  header_blockL config_role ++ body_blockL config_role secrets ++
    note_blockL config_role secrets ++ [PLine.blank]

/-- `ConfigGenerator.build_role_config`: the returned list of strings. -/
def build_role_config (config_role : ConfigRole) (secrets : Bool) : List String :=
  (build_role_configL config_role secrets).map PLine.render

/-! ## `ConfigGenerator.get_dependant_roles`

The source recursion carries no visited set; the embedding adds a fuel
parameter bounding the recursion depth, `none` meaning the bound was
exhausted (the Python call would still be recursing at that depth).
`dirExists role` models `role_dir.is_dir()`; `deps role` is the list of
`dep["role"]` entries of `meta/main.yml` (empty when that file is
missing). -/

def get_dependant_roles (dirExists : String → Bool) (deps : String → List String) :
    Nat → String → Option (Finset String)
  | 0, _ => none
  | Nat.succ fuel, role =>
    if dirExists role = false then some ∅
    else (deps role).foldl
      (fun acc dep =>
        match acc with
        | none => none
        | some roles =>
          match get_dependant_roles dirExists deps fuel dep with
          | none => none
          | some sub => some ((insert dep roles) ∪ sub))
      (some ∅)

/-! ## `ConfigGenerator.extract_role_names`

Returns `none` where the source raises `ValueError` ("Unexpected roles
data type").  Note the `str` branch of the source: `set.update(string)`
iterates the string, adding each character as a role name. -/

def extract_role_names (roles_data : YValue) : Option (Finset YValue) :=
  match roles_data with
  | .list items => some (items.toList.foldl
      (fun role_names item =>
        match item with
        | .s name => insert (YValue.s name) role_names
        | .dict entries =>
          match entries.get "role" with
          | some rv => insert rv role_names
          | none => role_names
        | _ => role_names)
      ∅)
  | .dict entries => some (entries.keys.foldl
      (fun role_names k => insert (YValue.s k) role_names) ∅)
  | .s v => some (v.toList.foldl
      (fun role_names c => insert (YValue.s (String.singleton c)) role_names) ∅)
  | _ => none

/-! ## `ConfigGenerator.generate_example_config`

Only the computation of `lines` is modelled (the directory and file
writes are I/O).  `parse : String → ConfigRole` stands for
`self.parse_role`; the iteration order over the role set is the `roles`
list. -/

/-- The initial `lines` of `generate_example_config`, before the role loop. -/
def config_header_lines (host_name : String) (secrets : Bool) : List String :=
  ["---", "# Autogenerated example config from roles argument_specs"] ++
    (if secrets then
      ["# SECRETS: This file contains only secret variables and is meant as a list of variables you should put in a vault or some secret manager, instead of here."]
    else []) ++
    (if host_name = SHARED_HOST_NAME then
      ["# These are the shared configs applied for all hosts. Any value here can be overriden in the specific host config.\n# Use the `shared` tag (in main playbook) to make configs appear here."]
    else [])

/-- The lines one role contributes inside the loop of
`generate_example_config`: the `continue` for secret files of roles with
no secret variables, else the `build_role_config` block (structural). -/
def role_blockL (config_role : ConfigRole) (secrets : Bool) : List PLine :=
  if secrets = true ∧ config_role.properties.any (fun p => p.secret) = false then []
  else build_role_configL config_role secrets

/-- String-level `role_blockL`. -/
def role_block_lines (config_role : ConfigRole) (secrets : Bool) : List String :=
  (role_blockL config_role secrets).map PLine.render

/-- `ConfigGenerator.generate_example_config`: the full `lines` list. -/
def generate_example_config_lines (parse : String → ConfigRole) (host_name : String)
    (roles : List String) (secrets : Bool) : List String :=
  roles.foldl (fun lines role => lines ++ role_block_lines (parse role) secrets)
    (config_header_lines host_name secrets)

/-! ## `ConfigGenerator.generate`

`accumulate` stands for `self.accumulate_roles` (applied to each host's
`group_name`); the per-host mapping is an association list with Python
`dict` semantics (assignment to an existing key replaces the value in
place, new keys append). -/

/-- Python `d[k] = v` on an association list. -/
def dictInsert {α : Type} : List (String × α) → String → α → List (String × α)
  | [], k, v => [(k, v)]
  | e :: rest, k, v => if e.1 = k then (k, v) :: rest else e :: dictInsert rest k v

/-- The `roles_per_host` dict after the first loop of `generate`. -/
def roles_per_host_raw (accumulate : String → Finset String)
    (hosts : List ConfigHost) : List (String × Finset String) :=
  hosts.foldl (fun m host => dictInsert m host.name (accumulate host.group_name)) []

/-- The `roles_per_host` dict after the shared-baseline subtraction loop
of `generate` (`roles.difference_update(all_roles)` for every non-shared
entry, when the shared host is present). -/
def generate_roles (accumulate : String → Finset String)
    (hosts : List ConfigHost) : List (String × Finset String) :=
  let m := roles_per_host_raw accumulate hosts
  match alistGet m SHARED_HOST_NAME with
  | some all_roles =>
    m.map (fun e => if e.1 = SHARED_HOST_NAME then e else (e.1, e.2 \ all_roles))
  | none => m

/-- The group of the last occurrence of host name `n` in the host list
(Python dict assignment keeps the last written value). -/
def last_group (hosts : List ConfigHost) (n : String) : Option String :=
  (hosts.reverse.find? (fun h => h.name = n)).map ConfigHost.group_name

/-! ## General lemmas about the embedding -/

theorem foldl_append_eq_flatMap {α β : Type} (f : α → List β) (l : List α) :
    ∀ init : List β, l.foldl (fun acc a => acc ++ f a) init = init ++ l.flatMap f := by
  induction l with
  | nil => intro init; simp
  | cons a t ih => intro init; simp [ih (init ++ f a)]

theorem flatMap_ite_eq_filter_flatMap {α β : Type} (p : α → Bool) (f : α → List β)
    (l : List α) :
    l.flatMap (fun a => if p a then f a else []) = (l.filter p).flatMap f := by
  induction l with
  | nil => rfl
  | cons a t ih => by_cases h : p a <;> simp [List.filter_cons, h, ih]

theorem alistGet_dictInsert {α : Type} (m : List (String × α)) (k n : String) (v : α) :
    alistGet (dictInsert m k v) n = if n = k then some v else alistGet m n := by
  induction m with
  | nil =>
    by_cases h : n = k
    · subst h; simp [dictInsert, alistGet]
    · have h2 : ¬(k = n) := fun hh => h hh.symm
      simp [dictInsert, alistGet, h, h2]
  | cons e t ih =>
    by_cases hk : e.1 = k
    · by_cases h : n = k
      · subst h; simp [dictInsert, alistGet, hk]
      · have h2 : ¬(k = n) := fun hh => h hh.symm
        simp [dictInsert, alistGet, hk, h, h2]
    · by_cases h : e.1 = n
      · have hnk : ¬(n = k) := fun hh => hk (h.trans hh)
        simp [dictInsert, alistGet, hk, h, hnk]
      · simp [dictInsert, alistGet, hk, h, ih]

theorem alistGet_subtract_map (m : List (String × Finset String)) (S : Finset String)
    (n : String) (hn : n ≠ SHARED_HOST_NAME) :
    alistGet (m.map (fun e => if e.1 = SHARED_HOST_NAME then e else (e.1, e.2 \ S))) n =
      (alistGet m n).map (fun r => r \ S) := by
  induction m with
  | nil => rfl
  | cons e t ih =>
    by_cases hs : e.1 = SHARED_HOST_NAME
    · have hne : ¬(SHARED_HOST_NAME = n) := fun hh => hn hh.symm
      simp [alistGet, hs, hne, ih]
    · by_cases he : e.1 = n <;> simp [alistGet, hs, he, hn, ih]

theorem alistGet_subtract_map_shared (m : List (String × Finset String)) (S : Finset String) :
    alistGet (m.map (fun e => if e.1 = SHARED_HOST_NAME then e else (e.1, e.2 \ S)))
      SHARED_HOST_NAME = alistGet m SHARED_HOST_NAME := by
  induction m with
  | nil => rfl
  | cons e t ih =>
    by_cases hs : e.1 = SHARED_HOST_NAME <;> simp [alistGet, hs, ih]

theorem last_group_nil (n : String) : last_group [] n = none := rfl

theorem last_group_cons (h : ConfigHost) (t : List ConfigHost) (n : String) :
    last_group (h :: t) n =
      match last_group t n with
      | some g => some g
      | none => if h.name = n then some h.group_name else none := by
  unfold last_group
  rw [List.reverse_cons, List.find?_append]
  cases hf : t.reverse.find? (fun x => x.name = n) with
  | some x => simp [hf]
  | none =>
    by_cases hn : h.name = n <;> simp [hf, List.find?, hn, Option.orElse]

theorem alistGet_roles_foldl (accumulate : String → Finset String) (hosts : List ConfigHost) :
    ∀ (m : List (String × Finset String)) (n : String),
      alistGet (hosts.foldl (fun m h => dictInsert m h.name (accumulate h.group_name)) m) n =
        match last_group hosts n with
        | some g => some (accumulate g)
        | none => alistGet m n := by
  induction hosts with
  | nil => intro m n; rfl
  | cons h t ih =>
    intro m n
    rw [List.foldl_cons, ih, last_group_cons]
    cases hg : last_group t n with
    | some g => rfl
    | none =>
      rw [alistGet_dictInsert]
      by_cases hn : h.name = n
      · simp [hn]
      · have h2 : ¬(n = h.name) := fun hh => hn hh.symm
        simp [hn, h2]

theorem alistGet_roles_per_host_raw (accumulate : String → Finset String)
    (hosts : List ConfigHost) (n : String) :
    alistGet (roles_per_host_raw accumulate hosts) n =
      match last_group hosts n with
      | some g => some (accumulate g)
      | none => none := by
  unfold roles_per_host_raw
  rw [alistGet_roles_foldl]
  rfl

theorem mem_ite_nil {α : Type} (c : Prop) [Decidable c] (l : List α) (x : α) :
    (x ∈ if c then l else []) ↔ c ∧ x ∈ l := by
  by_cases h : c <;> simp [h]

theorem propLine_mem_propLines (q : ConfigProperty) (a : String) (b : Option YScalar) :
    PLine.propLine a b ∈ propLines q ↔ a = q.name ∧ b = q.default := by
  rcases q with ⟨qn, qt, qd, qr, qdef, qs⟩
  cases qt <;> cases qdef <;> simp [propLines]

theorem propLine_not_mem_header (config_role : ConfigRole) (a : String) (b : Option YScalar) :
    PLine.propLine a b ∉ header_blockL config_role := by
  by_cases hd : config_role.description = "" <;> simp [header_blockL, hd]

theorem propLine_not_mem_note (config_role : ConfigRole) (secrets : Bool)
    (a : String) (b : Option YScalar) :
    PLine.propLine a b ∉ note_blockL config_role secrets := by
  unfold note_blockL
  split <;> simp

theorem propLine_mem_build (config_role : ConfigRole) (secrets : Bool)
    (a : String) (b : Option YScalar) :
    PLine.propLine a b ∈ build_role_configL config_role secrets ↔
      ∃ q ∈ config_role.properties, q.secret = secrets ∧ a = q.name ∧ b = q.default := by
  unfold build_role_configL
  simp [List.mem_append, propLine_not_mem_header, propLine_not_mem_note]
  by_cases hp : config_role.properties = []
  · simp [body_blockL, hp]
  · simp only [body_blockL, hp, if_neg]
    simp [List.mem_flatMap, mem_ite_nil, propLine_mem_propLines]

theorem noOptions_not_mem_propLines_flatMap (props : List ConfigProperty) (secrets : Bool) :
    PLine.noOptions ∉ props.flatMap (fun p => if p.secret = secrets then propLines p else []) := by
  intro hmem
  rw [List.mem_flatMap] at hmem
  obtain ⟨q, hq, hin⟩ := hmem
  rw [mem_ite_nil] at hin
  rcases q with ⟨qn, qt, qd, qr, qdef, qs⟩
  rcases hin with ⟨-, hin⟩
  cases qt <;> cases qdef <;> simp [propLines] at hin

theorem noOptions_mem_build (config_role : ConfigRole) (secrets : Bool) :
    PLine.noOptions ∈ build_role_configL config_role secrets ↔ config_role.properties = [] := by
  unfold build_role_configL
  have hh : PLine.noOptions ∉ header_blockL config_role := by
    by_cases hd : config_role.description = "" <;> simp [header_blockL, hd]
  have hn : PLine.noOptions ∉ note_blockL config_role secrets := by
    unfold note_blockL; split <;> simp
  simp [List.mem_append, hh, hn]
  by_cases hp : config_role.properties = []
  · simp [body_blockL, hp]
  · simp [body_blockL, hp, noOptions_not_mem_propLines_flatMap config_role.properties secrets]

theorem parse_role_fold (defaults : List (String × Option YScalar))
    (options : List (String × OptionMeta)) :
    ∀ (d0 : String) (acc : List ConfigProperty),
      (options.foldl
        (fun (st : String × List ConfigProperty) e =>
          (pyStrip (e.2.description.getD ""), st.2 ++ [option_property defaults e.1 e.2]))
        (d0, acc)).2 =
      acc ++ options.map (fun e => option_property defaults e.1 e.2) := by
  induction options with
  | nil => intro d0 acc; simp
  | cons e t ih => intro d0 acc; simp [List.foldl_cons, ih, List.append_assoc]

theorem parse_role_properties (role : String) (argSpecs : Option ArgSpecsMain)
    (defaultsFile : Option (List (String × Option YScalar))) :
    (parse_role role (some argSpecs) defaultsFile).properties =
      (match argSpecs with
       | some m => m.options.getD []
       | none => []).map
        (fun (e : String × OptionMeta) => option_property (defaultsFile.getD []) e.1 e.2) := by
  cases argSpecs with
  | none => rfl
  | some m =>
    have h := parse_role_fold (defaultsFile.getD []) (m.options.getD [])
      (m.description.getD "") ([] : List ConfigProperty)
    simpa using h

theorem role_block_lines_false (config_role : ConfigRole) :
    role_block_lines config_role false = build_role_config config_role false := by
  simp [role_block_lines, role_blockL, build_role_config]

theorem role_block_lines_true (config_role : ConfigRole) :
    role_block_lines config_role true =
      if config_role.properties.any (fun p => p.secret) then
        build_role_config config_role true
      else [] := by
  by_cases h : config_role.properties.any (fun p => p.secret) <;>
    simp [role_block_lines, role_blockL, build_role_config, h]

theorem generate_example_config_lines_eq (parse : String → ConfigRole) (host_name : String)
    (roles : List String) (secrets : Bool) :
    generate_example_config_lines parse host_name roles secrets =
      config_header_lines host_name secrets ++
        roles.flatMap (fun role => role_block_lines (parse role) secrets) := by
  unfold generate_example_config_lines
  exact foldl_append_eq_flatMap _ roles _

/-! ## Claim theorems -/

/-- The dependency graph of the cycle A -> B -> A: each role's
`meta/main.yml` names the other as its sole dependency. -/
def cycle_deps : String → List String := fun role =>
  if role = "A" then ["B"] else if role = "B" then ["A"] else []

/-- C1: refuted on the code - `get_dependant_roles` carries no visited
set, so on the cyclic graph A -> B -> A the recursion never bottoms out:
for every recursion depth bound (fuel) the embedded traversal is still
recursing when the bound runs out, whichever of the two roles the query
starts at.  The spec's claim that the call terminates with the closure
of the cycle is therefore false of the source (a missing-visited-set
bug: Python raises `RecursionError`). -/
theorem c1_cycle_diverges : ∀ fuel : Nat,
    get_dependant_roles (fun _ => true) cycle_deps fuel "A" = none ∧
    get_dependant_roles (fun _ => true) cycle_deps fuel "B" = none := by
  intro fuel
  induction fuel with
  | zero => exact ⟨rfl, rfl⟩
  | succ k ih =>
    refine ⟨?_, ?_⟩
    · have h : get_dependant_roles (fun _ => true) cycle_deps (k + 1) "A" =
          (match get_dependant_roles (fun _ => true) cycle_deps k "B" with
           | none => none
           | some sub => some ((insert "B" (∅ : Finset String)) ∪ sub)) := rfl
      rw [h, ih.2]
    · have h : get_dependant_roles (fun _ => true) cycle_deps (k + 1) "B" =
          (match get_dependant_roles (fun _ => true) cycle_deps k "A" with
           | none => none
           | some sub => some ((insert "A" (∅ : Finset String)) ∪ sub)) := rfl
      rw [h, ih.1]

/-- C2: when the shared host `all` is in the per-host plan, `generate`
rewrites every other host's entry to its accumulated closure minus the
shared closure (the shared entry itself unchanged), so every non-shared
host's final role set is disjoint from the shared host's. -/
theorem c2_shared_subtraction (accumulate : String → Finset String)
    (hosts : List ConfigHost) (S : Finset String)
    (hS : alistGet (roles_per_host_raw accumulate hosts) SHARED_HOST_NAME = some S)
    (n : String) (hn : n ≠ SHARED_HOST_NAME) :
    alistGet (generate_roles accumulate hosts) n =
      (alistGet (roles_per_host_raw accumulate hosts) n).map (fun r => r \ S) ∧
    alistGet (generate_roles accumulate hosts) SHARED_HOST_NAME = some S ∧
    ∀ r, alistGet (generate_roles accumulate hosts) n = some r → r ∩ S = ∅ := by
  have hG : generate_roles accumulate hosts =
      (roles_per_host_raw accumulate hosts).map
        (fun e => if e.1 = SHARED_HOST_NAME then e else (e.1, e.2 \ S)) := by
    unfold generate_roles
    simp only [hS]
  refine ⟨?_, ?_, ?_⟩
  · rw [hG, alistGet_subtract_map _ _ _ hn]
  · rw [hG, alistGet_subtract_map_shared, hS]
  · intro r hr
    rw [hG, alistGet_subtract_map _ _ _ hn] at hr
    cases hraw : alistGet (roles_per_host_raw accumulate hosts) n with
    | none => rw [hraw] at hr; simp at hr
    | some r0 =>
      rw [hraw] at hr
      simp only [Option.map, Option.some.injEq] at hr
      rw [← hr]
      ext x
      simp

/-- C10: in `generate`, a host name occurring several times keeps only
the role set accumulated for its last occurrence (Python dict assignment
replaces the value), and when the host list is built by `get_hosts` with
the shared host included, an inventory host literally named `all`
overrides the synthetic shared entry, so the set subtracted from every
other host is the one accumulated for that last occurrence's group. -/
theorem c10_last_occurrence_wins (accumulate : String → Finset String)
    (inv : List (List (String × Option (List String)))) :
    (∀ n g, last_group (get_hosts true inv) n = some g →
      alistGet (roles_per_host_raw accumulate (get_hosts true inv)) n =
        some (accumulate g)) ∧
    (∀ g, last_group (get_hosts true inv) SHARED_HOST_NAME = some g →
      ∀ n, n ≠ SHARED_HOST_NAME →
        alistGet (generate_roles accumulate (get_hosts true inv)) n =
          (alistGet (roles_per_host_raw accumulate (get_hosts true inv)) n).map
            (fun r => r \ accumulate g)) := by
  refine ⟨?_, ?_⟩
  · intro n g hg
    rw [alistGet_roles_per_host_raw, hg]
  · intro g hg n hn
    have hS : alistGet (roles_per_host_raw accumulate (get_hosts true inv))
        SHARED_HOST_NAME = some (accumulate g) := by
      rw [alistGet_roles_per_host_raw, hg]
    have hG : generate_roles accumulate (get_hosts true inv) =
        (roles_per_host_raw accumulate (get_hosts true inv)).map
          (fun e => if e.1 = SHARED_HOST_NAME then e else (e.1, e.2 \ accumulate g)) := by
      unfold generate_roles
      simp only [hS]
    rw [hG, alistGet_subtract_map _ _ _ hn]

/-- C3: for a role whose property names are distinct (they are the keys
of the `options` mapping), a property's `name: value` line is emitted by
the pass with `secrets = s` exactly when its secret flag equals `s`, so
across the two passes it appears exactly once - in the secrets output
iff `secret` is true, in the normal output iff it is false (the
secrets-pass skip of roles without secret properties included). -/
theorem c3_secret_partition (config_role : ConfigRole) (p : ConfigProperty)
    (hp : p ∈ config_role.properties)
    (hnd : (config_role.properties.map ConfigProperty.name).Nodup) (s : Bool) :
    PLine.propLine p.name p.default ∈ role_blockL config_role s ↔ p.secret = s := by
  unfold role_blockL
  by_cases hskip : s = true ∧ config_role.properties.any (fun q => q.secret) = false
  · rw [if_pos hskip]
    obtain ⟨hs, hany⟩ := hskip
    subst hs
    rw [List.any_eq_false] at hany
    have hps := hany p hp
    constructor
    · intro h
      exact absurd h (List.not_mem_nil _)
    · intro h
      exact absurd h hps
  · rw [if_neg hskip, propLine_mem_build]
    constructor
    · rintro ⟨q, hq, hsec, hname, hdef⟩
      have hqp : q = p := List.inj_on_of_nodup_map hnd hq hp hname.symm
      rw [← hqp]
      exact hsec
    · intro hsec
      exact ⟨p, hp, hsec, rfl, rfl⟩

/-- C7: in the secrets pass `generate_example_config` contributes a
block only for roles with at least one secret-flagged property (roles
with none - in particular roles with no properties at all - are skipped
entirely), while the non-secret pass appends a `build_role_config` block
for every planned role. -/
theorem c7_secrets_pass_skips (parse : String → ConfigRole) (host_name : String)
    (roles : List String) :
    generate_example_config_lines parse host_name roles true =
      config_header_lines host_name true ++
        (roles.filter (fun role => (parse role).properties.any (fun p => p.secret))).flatMap
          (fun role => build_role_config (parse role) true) ∧
    generate_example_config_lines parse host_name roles false =
      config_header_lines host_name false ++
        roles.flatMap (fun role => build_role_config (parse role) false) := by
  refine ⟨?_, ?_⟩
  · rw [generate_example_config_lines_eq]
    congr 1
    rw [← flatMap_ite_eq_filter_flatMap]
    congr 1
    funext role
    rw [role_block_lines_true]
  · rw [generate_example_config_lines_eq]
    congr 1

/-- C8: `build_role_config` emits the `(no options)` marker line exactly
when the role has no properties at all, and a role that has properties
but none matching the current pass's filter renders a block of just the
header part (header line, optional description, separator, blank) and
the trailing part (possible secrets note, final blank) - no marker, no
property lines. -/
theorem c8_no_options_marker (config_role : ConfigRole) (s : Bool) :
    (PLine.noOptions ∈ build_role_configL config_role s ↔
      config_role.properties = []) ∧
    (config_role.properties ≠ [] → (∀ p ∈ config_role.properties, p.secret ≠ s) →
      build_role_configL config_role s =
        header_blockL config_role ++ note_blockL config_role s ++ [PLine.blank]) := by
  refine ⟨noOptions_mem_build config_role s, ?_⟩
  intro hne hall
  have hbody : body_blockL config_role s = [] := by
    unfold body_blockL
    rw [if_neg hne]
    rw [List.flatMap_eq_nil_iff]
    intro q hq
    rw [if_neg (hall q hq)]
  unfold build_role_configL
  rw [hbody]
  simp

/-- The shapes `extract_role_names` accepts without raising: Python
`isinstance` checks for `list`, `dict` and `str`. -/
def is_list_dict_or_str : YValue → Bool
  | .list _ => true
  | .dict _ => true
  | .s _ => true
  | _ => false

/-- C4 (counterexample): a bare string is not one of the three supported
roles shapes, yet `extract_role_names` does not raise on it - the `str`
branch runs `set.update(string)`, which iterates the string and silently
coerces it to the set of its single-character names. -/
theorem c4_counterexample :
    extract_role_names (YValue.s "ab") = some {YValue.s "b", YValue.s "a"} := by
  decide

/-- C4 (amended): `extract_role_names` raises the fatal
unrecognized-roles-format error exactly for values that are neither a
sequence, nor a mapping, nor a string; sequences with unrecognized items
and bare strings are silently coerced instead of raising. -/
theorem c4_amended_unrecognized_error (roles_data : YValue) :
    extract_role_names roles_data = none ↔ is_list_dict_or_str roles_data = false := by
  cases roles_data <;> simp [extract_role_names, is_list_dict_or_str]

/-- The spec file of claim C5's failing input: top-level description
`"Top role description"`, one option `x` with its own description. -/
def c5_spec_main : ArgSpecsMain :=
  ArgSpecsMain.mk (some "Top role description") (some "Short")
    (some [("x", OptionMeta.mk (some "str") (some "Option doc") (some true) (some false)
      (some (YScalar.i 5)))])

/-- C5: refuted on the code - the options loop of `parse_role` rebinds
the enclosing `description` variable, so for a role with a declared
option the returned `RoleConfig.description` is the last option's
description, not the top-level `argument_specs.main` description. -/
theorem c5_description_shadowed :
    (parse_role "web" (some (some c5_spec_main)) none).description = "Option doc" ∧
    ¬ (parse_role "web" (some (some c5_spec_main)) none).description =
        "Top role description" := by
  decide

/-- C6: the resolved default of every declared option is the
defaults-file value whenever the defaults file defines the variable, and
the spec-declared default otherwise (absent when neither exists). -/
theorem c6_default_precedence (role : String) (main : ArgSpecsMain)
    (defaultsFile : Option (List (String × Option YScalar))) (idx : Nat) (n : String)
    (m : OptionMeta) (h : (main.options.getD [])[idx]? = some (n, m)) :
    ∃ p, (parse_role role (some (some main)) defaultsFile).properties[idx]? = some p ∧
      p.name = n ∧
      (∀ v, alistGet (defaultsFile.getD []) n = some v → p.default = v) ∧
      (alistGet (defaultsFile.getD []) n = none → p.default = m.default) := by
  refine ⟨option_property (defaultsFile.getD []) n m, ?_, rfl, ?_, ?_⟩
  · rw [parse_role_properties, List.getElem?_map]
    simp only []
    rw [h]
    rfl
  · intro v hv
    unfold option_property
    simp [hv]
  · intro hv
    unfold option_property
    simp [hv]

/-- C9: the three supported roles representations - bare names, mappings
with a `role` key (extra keys ignored), and a mapping keyed by role
names - all normalize to the same flat set of names. -/
theorem c9_role_list_normalization :
    extract_role_names (YValue.list (yseq [.s "a", .s "b"])) =
      some {YValue.s "a", YValue.s "b"} ∧
    extract_role_names (YValue.list (yseq
        [.dict (ymap [("role", .s "a")]),
         .dict (ymap [("role", .s "b"), ("tags", .list (yseq [.s "x"]))])])) =
      some {YValue.s "a", YValue.s "b"} ∧
    extract_role_names (YValue.dict (ymap [("a", .dict (ymap [])), ("b", .dict (ymap []))])) =
      some {YValue.s "a", YValue.s "b"} := by
  rw [Finset.pair_comm (YValue.s "a") (YValue.s "b")]
  refine ⟨by decide, by decide, by decide⟩

/-! ## Witnesses -/

/-- Accumulated roles per group for the C2 witness deployment. -/
def c2_accumulate : String → Finset String := fun g =>
  if g = "all" then {"base"} else if g = "web" then {"base", "nginx"} else ∅

/-- Hosts of the C2 witness deployment: the shared host and one web host. -/
def c2_hosts : List ConfigHost := [ConfigHost.mk "all" "all", ConfigHost.mk "web1" "web"]

/-- C2 witness: on a concrete deployment the web host's final set is its
closure minus the shared set, hence disjoint from it. -/
theorem c2_shared_subtraction_witness :
    alistGet (generate_roles c2_accumulate c2_hosts) "web1" =
      (alistGet (roles_per_host_raw c2_accumulate c2_hosts) "web1").map
        (fun r => r \ {"base"}) ∧
    ({"nginx"} : Finset String) ∩ {"base"} = ∅ :=
  ⟨(c2_shared_subtraction c2_accumulate c2_hosts {"base"} (by decide) "web1" (by decide)).1,
   (c2_shared_subtraction c2_accumulate c2_hosts {"base"} (by decide) "web1"
      (by decide)).2.2 {"nginx"} (by decide)⟩

/-- A role with one normal and one secret property (C3 witness). -/
def c3_role : ConfigRole :=
  ConfigRole.mk "r" "" ""
    [ConfigProperty.mk "plain" none "" false none false,
     ConfigProperty.mk "token" none "" false none true]

/-- The secret property of `c3_role`. -/
def c3_prop : ConfigProperty := ConfigProperty.mk "token" none "" false none true

/-- C3 witness: the secret property's line is emitted by the secrets pass
of the concrete role. -/
theorem c3_secret_partition_witness :
    PLine.propLine "token" none ∈ role_blockL c3_role true :=
  (c3_secret_partition c3_role c3_prop (by decide) (by decide) true).mpr rfl

/-- Spec metadata for the C6 witness: option `x` declares `default: 5`. -/
def c6_spec_main : ArgSpecsMain :=
  ArgSpecsMain.mk (some "d") (some "sd")
    (some [("x", OptionMeta.mk (some "int") (some "the x") (some false) (some false)
      (some (YScalar.i 5)))])

/-- Defaults file for the C6 witness: `x: 10`. -/
def c6_defaults : List (String × Option YScalar) := [("x", some (YScalar.i 10))]

/-- C6 witness: spec default 5 with defaults-file value 10 resolves to 10. -/
theorem c6_default_precedence_witness :
    ∃ p, (parse_role "r" (some (some c6_spec_main)) (some c6_defaults)).properties[0]? =
        some p ∧ p.name = "x" ∧ p.default = some (YScalar.i 10) := by
  obtain ⟨p, h1, h2, h3, h4⟩ := c6_default_precedence "r" c6_spec_main (some c6_defaults)
    0 "x" (OptionMeta.mk (some "int") (some "the x") (some false) (some false)
      (some (YScalar.i 5))) (by decide)
  exact ⟨p, h1, h2, h3 (some (YScalar.i 10)) (by decide)⟩

/-- A documented role whose only property is secret (C8 witness). -/
def c8_role : ConfigRole :=
  ConfigRole.mk "vaulted" "" "" [ConfigProperty.mk "token" none "" false none true]

/-- C8 witness: in the non-secret pass the concrete role renders header
and trailing parts only, and no `(no options)` marker. -/
theorem c8_no_options_marker_witness :
    build_role_configL c8_role false =
      header_blockL c8_role ++ note_blockL c8_role false ++ [PLine.blank] ∧
    PLine.noOptions ∉ build_role_configL c8_role false := by
  have h := c8_no_options_marker c8_role false
  exact ⟨h.2 (by decide) (by decide), fun hmem => absurd (h.1.mp hmem) (by decide)⟩

/-- Accumulated roles per group for the C10 witness. -/
def c10_accumulate : String → Finset String := fun g =>
  if g = "web" then {"a", "b"} else if g = "db" then {"a", "x"} else {"zz"}

/-- Inventory for the C10 witness: a real host literally named `all` in
group `web`, plus host `db1` in group `db`. -/
def c10_inventory : List (List (String × Option (List String))) :=
  [[("web", some ["all"]), ("db", some ["db1"])]]

/-- C10 witness: the inventory host named `all` (group `web`, last
occurrence) replaces the synthetic shared entry, so `db1` gets
`accumulate "db" minus accumulate "web"`, not minus the synthetic
baseline. -/
theorem c10_last_occurrence_wins_witness :
    alistGet (generate_roles c10_accumulate (get_hosts true c10_inventory)) "db1" =
      some ({"x"} : Finset String) := by
  have h := (c10_last_occurrence_wins c10_accumulate c10_inventory).2 "web"
    (by decide) "db1" (by decide)
  rw [h]
  decide
